import Mathlib

/-!
Shallow embedding of the Attendance Classification & Payroll Computation
Engine of the MSVI-Employee-Clock-In repository.

Machine numbers of the JavaScript source are modelled as exact rationals
(`ℚ`); the special value `NaN` and JavaScript truthiness are modelled
explicitly where a claim depends on them.  Strings are Lean `String`s and
all string processing is re-implemented with structurally recursive
functions over `List Char`, so every definition evaluates inside the
kernel.
-/

namespace Clock

/-! ### String utilities (JS `includes`, `toLowerCase`, `trim`, `split`) -/

/-- `startsWithL needle hay` : `needle` is an initial segment of `hay`. -/
def startsWithL : List Char → List Char → Bool
  | [], _ => true
  | _ :: _, [] => false
  | a :: as, b :: bs => a == b && startsWithL as bs

/-- `hasSub needle hay` : `needle` occurs contiguously in `hay`
(JavaScript `String.prototype.includes`). -/
def hasSub (needle : List Char) : List Char → Bool
  | [] => needle.isEmpty
  | c :: rest => startsWithL needle (c :: rest) || hasSub needle rest

/-- JavaScript `hay.includes(pat)`. -/
def strIncludes (hay pat : String) : Bool :=
  hasSub pat.toList hay.toList

/-- JavaScript `s.toLowerCase()` (ASCII, which covers every rate-type
string the source compares against). -/
def lowerStr (s : String) : String :=
  String.mk (s.toList.map Char.toLower)

/-- Whitespace class used by `trim` / the regex `\s`. -/
def isWs (c : Char) : Bool :=
  c == ' ' || c == '\t' || c == '\n' || c == '\r'

/-- JavaScript `s.trim()` on a character list. -/
def trimL (l : List Char) : List Char :=
  ((((l.dropWhile isWs).reverse).dropWhile isWs).reverse)

/-- JavaScript `s.split('-')`. -/
def splitDash : List Char → List (List Char)
  | [] => [[]]
  | c :: rest =>
    if c == '-' then [] :: splitDash rest
    else
      match splitDash rest with
      | [] => [[c]]
      | h :: t => (c :: h) :: t

/-! ### JavaScript value model

A raw employee field may hold: a finite number, the value `NaN`, a
missing value (`undefined`/`null`), a *truthy* value whose `Number(...)`
coercion is a finite number `q` (`strNum q` — e.g. the numeric strings
`"0"`, `"40"`, a whitespace-only string `" "` which coerces to 0, or a
one-element array), or a *truthy* value whose coercion is `NaN`
(`other` — e.g. a non-numeric non-empty string such as `"abc"`, or a
plain object).  The falsy empty string `""` behaves exactly like
`num 0` (falsy, coerces to 0) and is represented by it. -/

inductive JVal where
  | undef
  | nanV
  | num (q : ℚ)
  | strNum (q : ℚ)
  | other
  deriving DecidableEq, Repr

/-- JavaScript truthiness of the modelled values (`NaN` and the number 0
are falsy; every string/object value modelled by `strNum`/`other` is
non-empty, hence truthy). -/
def JVal.truthy : JVal → Bool
  | .undef => false
  | .nanV => false
  | .num q => q != 0
  | .strNum _ => true
  | .other => true

/-- A JavaScript number produced by the arithmetic below: `NaN`,
`±Infinity`, or a finite value. -/
inductive JSNum where
  | nan
  | inf
  | ninf
  | num (q : ℚ)
  deriving DecidableEq, Repr

/-- JavaScript truthiness of a number (`NaN` and 0 falsy, infinities
truthy). -/
def JSNum.truthy : JSNum → Bool
  | .nan => false
  | .inf => true
  | .ninf => true
  | .num q => q != 0

/-- JavaScript `Number(x)` on the modelled field values
(`Number(undefined) = NaN`; `strNum q` coerces to `q`; `other` to
`NaN`). -/
def toNumber : JVal → JSNum
  | .undef => .nan
  | .nanV => .nan
  | .num q => .num q
  | .strNum q => .num q
  | .other => .nan

/-- JavaScript division: `NaN` propagates; a nonzero finite number
divided by zero gives `Infinity` with the numerator's sign and `0/0`
gives `NaN`; infinities divide as in IEEE arithmetic.  Signed zero is
not modelled (no negative-zero value reaches these divisions). -/
def jsDiv : JSNum → JSNum → JSNum
  | .nan, _ => .nan
  | _, .nan => .nan
  | .num a, .num b =>
    if b = 0 then (if a = 0 then .nan else if 0 < a then .inf else .ninf)
    else .num (a / b)
  | .inf, .num b => if b < 0 then .ninf else .inf
  | .ninf, .num b => if b < 0 then .inf else .ninf
  | .num _, .inf => .num 0
  | .num _, .ninf => .num 0
  | .inf, .inf => .nan
  | .inf, .ninf => .nan
  | .ninf, .inf => .nan
  | .ninf, .ninf => .nan

/-- JavaScript `x || d` on a computed number: keep `x` when truthy, else
the default `d`. -/
def orNum (x : JSNum) (d : ℚ) : JSNum :=
  if x.truthy then x else .num d

/-! ### Employee objects with raw (possibly malformed) fields -/

/-- An employee object as the two `calculateHourlyRate` copies see it:
the two numeric fields may hold arbitrary JavaScript values. -/
structure JEmp where
  baseSalary : JVal
  standardWorkweekHours : JVal
  deriving DecidableEq, Repr

/-- `emp?.baseSalary` (optional chaining: a missing object yields
`undefined`). -/
def getBase : Option JEmp → JVal
  | none => .undef
  | some e => e.baseSalary

/-- `emp?.standardWorkweekHours`. -/
def getStd : Option JEmp → JVal
  | none => .undef
  | some e => e.standardWorkweekHours

/-- `src/attendance.js` `calculateHourlyRate` (lines 621–629):
```js
const base = Number(emp?.baseSalary) || 0;
if (!base) return 0;
const standard = Number(emp?.standardWorkweekHours) || 40;
const daily = standard / 7;
const dailyRate = base / 30;
return dailyRate / daily;
```
Both fields are coerced with `Number(...)` before the `||` defaults. -/
def calculateHourlyRateAtt (emp : Option JEmp) : JSNum :=
  let base := orNum (toNumber (getBase emp)) 0
  if !base.truthy then .num 0
  else
    let standard := orNum (toNumber (getStd emp)) 40
    let daily := jsDiv standard (.num 7)
    let dailyRate := jsDiv base (.num 30)
    jsDiv dailyRate daily

/-- The `daily` divisor used by `calculateHourlyRateAtt` past the
early-return. -/
def dailyDivisorAtt (emp : Option JEmp) : JSNum :=
  jsDiv (orNum (toNumber (getStd emp)) 40) (.num 7)

/-- `src/clock-in-api.js` `calculateHourlyRate` (lines 271–278):
```js
const base = emp?.baseSalary || 0;
if (!base) return 0;
const standard = emp?.standardWorkweekHours || 40;
const daily = standard / 7;
const dailyRate = base / 30;
return dailyRate / daily;
```
No `Number(...)` coercion here: `||` keeps any truthy value as-is, so a
truthy non-numeric field, or a truthy field coercing to 0 such as the
string `"0"`, flows into the arithmetic. -/
def calculateHourlyRateClock (emp : Option JEmp) : JSNum :=
  let bv := getBase emp
  let base : JVal := if bv.truthy then bv else .num 0
  if !base.truthy then .num 0
  else
    let sv := getStd emp
    let standard : JVal := if sv.truthy then sv else .num 40
    let daily : JSNum := jsDiv (toNumber standard) (.num 7)
    let dailyRate : JSNum := jsDiv (toNumber base) (.num 30)
    jsDiv dailyRate daily

/-- The `daily` divisor of the clock-in copy past the early-return. -/
def dailyDivisorClock (emp : Option JEmp) : JSNum :=
  let sv := getStd emp
  jsDiv (toNumber (if sv.truthy then sv else .num 40)) (.num 7)

/-! ### Schedule Span Resolver (`src/attendance.js` lines 3–25)

`getScheduleSpanHours` parses a `"H:MM AM/PM - H:MM AM/PM"` descriptor.
Its inner helper applies the unanchored regex
`/(\d{1,2}):(\d{2})\s*(AM|PM)/i` via `String.prototype.match`, i.e. it
searches left to right for the first occurrence, with the greedy
one-or-two-digit hour group.  `matchHourTail`/`matchTimeAt`/`findTime`
re-implement exactly that search with explicit backtracking. -/

/-- Numeric value of a digit character. -/
def digitVal (c : Char) : Nat := c.toNat - '0'.toNat

/-- Accepting `AM`/`PM` case-insensitively: returns `some isPM`. -/
def matchPeriod : List Char → Option Bool
  | a :: m :: _ =>
    if (a == 'A' || a == 'a') && (m == 'M' || m == 'm') then some false
    else if (a == 'P' || a == 'p') && (m == 'M' || m == 'm') then some true
    else none
  | _ => none

/-- After the hour digits: expect `:`, two digits, `\s*`, then `AM|PM`.
Returns `(hour, minute, isPM)`. -/
def matchHourTail (h : Nat) : List Char → Option (Nat × Nat × Bool)
  | ':' :: d1 :: d2 :: rest =>
    if d1.isDigit && d2.isDigit then
      match matchPeriod (rest.dropWhile isWs) with
      | some pm => some (h, digitVal d1 * 10 + digitVal d2, pm)
      | none => none
    else none
  | _ => none

/-- Try the whole pattern at the current position: the hour group
`\d{1,2}` is greedy, so two digits are tried before one. -/
def matchTimeAt : List Char → Option (Nat × Nat × Bool)
  | [] => none
  | c :: rest =>
    if c.isDigit then
      match rest with
      | c2 :: rest2 =>
        if c2.isDigit then
          match matchHourTail (digitVal c * 10 + digitVal c2) rest2 with
          | some r => some r
          | none => matchHourTail (digitVal c) rest
        else matchHourTail (digitVal c) rest
      | [] => none
    else none

/-- Left-to-right regex search of the time pattern. -/
def findTime : List Char → Option (Nat × Nat × Bool)
  | [] => none
  | c :: rest =>
    match matchTimeAt (c :: rest) with
    | some r => some r
    | none => findTime rest

/-- The inner `parseTo24hr` helper: total minutes since midnight, `none`
when the regex does not match.
```js
let h = parseInt(hours, 10);
if (period.toUpperCase() === 'PM' && h !== 12) h += 12;
if (period.toUpperCase() === 'AM' && h === 12) h = 0;
return h * 60 + parseInt(minutes, 10);
``` -/
def parseTo24hr (l : List Char) : Option Nat :=
  match findTime l with
  | none => none
  | some (h, m, pm) =>
    let h24 := if pm && h ≠ 12 then h + 12 else if !pm && h == 12 then 0 else h
    some (h24 * 60 + m)

/-- All of `getScheduleSpanHours` except the final division by 60: the
signed difference `endMinutes - startMinutes`, or `none` on every
unparsable input.
```js
if (!coreWorkingHours || coreWorkingHours === 'N/A') return null;
const parts = coreWorkingHours.split('-').map(s => s.trim());
if (parts.length !== 2) return null;
const startMinutes = parseTo24hr(parts[0]);
const endMinutes = parseTo24hr(parts[1]);
if (startMinutes === null || endMinutes === null) return null;
```
The argument is `none` when the field is absent (`undefined`). -/
def spanFromParts : List (List Char) → Option ℤ
  | [a, b] =>
    match parseTo24hr a, parseTo24hr b with
    | some startMin, some endMin => some ((endMin : ℤ) - startMin)
    | _, _ => none
  | _ => none

def spanMinutes (core : Option String) : Option ℤ :=
  match core with
  | none => none
  | some s =>
    if s = "" || s = "N/A" then none
    else spanFromParts ((splitDash s.toList).map trimL)

/-- `getScheduleSpanHours(coreWorkingHours)`: the parsed minute
difference divided by 60 (`return (endMinutes - startMinutes) / 60`). -/
def getScheduleSpanHours (core : Option String) : Option ℚ :=
  (spanMinutes core).map (fun (d : ℤ) => (d : ℚ) / 60)

/-! ### Employees with numeric fields

Employee objects flowing through the payroll computations have already
been coerced to numbers at the API boundary (`Number(...) || default` in
`getEmployeeById` / the HR API mappers), so they are modelled with exact
rational fields.  A missing employee is `none`. -/

structure Emp where
  baseSalary : ℚ
  standardWorkweekHours : ℚ
  rateType : String
  employmentType : String
  coreWorkingHours : Option String
  deriving DecidableEq, Repr

/-- `employee?.standardWorkweekHours || 40` (also
`Number(...) || 40`). -/
def stdOr40 : Option Emp → ℚ
  | none => 40
  | some e => if e.standardWorkweekHours = 0 then 40 else e.standardWorkweekHours

/-- `employee?.baseSalary || 0`. -/
def baseOr0 : Option Emp → ℚ
  | none => 0
  | some e => e.baseSalary

/-- `employee?.coreWorkingHours` (the `|| ''` variant in part_004 is
equivalent here because `getScheduleSpanHours` maps `''` to `null`
exactly as it maps a missing value). -/
def coreOf : Option Emp → Option String
  | none => none
  | some e => e.coreWorkingHours

/-- The wide Fixed-compensation test, duplicated verbatim at
`src/clock-in-api.js` `isFixedRate` (256–264) and inline in
`src/attendance.js` (338, 646, 1199, 2229):
```js
rateType.includes('fixed') || rateType.includes('monthly') ||
rateType.includes('salary') || empType.includes('fixed')
```
with both strings lowercased and defaulted to `''`. -/
def isFixedEmp (emp : Option Emp) : Bool :=
  match emp with
  | none => false
  | some e =>
    let rt := lowerStr e.rateType
    let et := lowerStr e.employmentType
    strIncludes rt "fixed" || strIncludes rt "monthly" ||
      strIncludes rt "salary" || strIncludes et "fixed"

/-- `calculateHourlyRate` on number-coerced employee data (both copies
agree there):
```js
const base = ... || 0;  if (!base) return 0;
const standard = ... || 40;
const daily = standard / 7;
const dailyRate = base / 30;
return dailyRate / daily;
``` -/
def calculateHourlyRateNum (emp : Option Emp) : ℚ :=
  let base := baseOr0 emp
  if base = 0 then 0
  else
    let standard := stdOr40 emp
    let daily := standard / 7
    let dailyRate := base / 30
    dailyRate / daily

/-- JavaScript `Math.round(x * 100) / 100` (round half towards `+∞`). -/
def round2 (q : ℚ) : ℚ :=
  (⌊q * 100 + 1 / 2⌋ : ℚ) / 100

/-! ### Clock-in overtime fields (`src/clock-in-api.js` 290–333) -/

structure OvertimeFields where
  TotalHoursWorked : ℚ
  OvertimeHours : ℚ
  OverTimePay : ℚ
  deriving DecidableEq, Repr

/-- `calculateOvertimeFields(totalHours, employeeId)`; the employee-fetch
result is passed in directly (on a fetch error the `catch` branch returns
the same zero defaults as `employee = none` with fixed-check false —
both collapse to the `none` case here). -/
def calculateOvertimeFields (totalHours : ℚ) (employee : Option Emp) :
    OvertimeFields :=
  let base : OvertimeFields := ⟨round2 totalHours, 0, 0⟩
  if isFixedEmp employee then base
  else
    let standardDailyHours : ℚ :=
      match employee with
      | some e => e.standardWorkweekHours / 7
      | none => 8
    let overtimeHours := max 0 (totalHours - standardDailyHours)
    let pay : ℚ :=
      match employee with
      | some e =>
        if e.baseSalary > 0 ∧ overtimeHours > 0 then
          round2 (overtimeHours * calculateHourlyRateNum employee * 1.25)
        else 0
      | none => 0
    ⟨round2 totalHours, round2 overtimeHours, pay⟩

/-! ### Clock-in daily hours (`src/clock-in-api.js` 174–224) -/

/-- Anchored 12-hour pattern tail after the hour digits:
`: \d\d \s* (AM|PM) $`, returning minutes since midnight (hour already
adjusted per the source's AM/PM rules). -/
def parse12core (h : Nat) : List Char → Option Nat
  | ':' :: d1 :: d2 :: rest =>
    if d1.isDigit && d2.isDigit then
      match matchPeriod (rest.dropWhile isWs), rest.dropWhile isWs with
      | some pm, [_, _] =>
        let h24 := if !pm && h == 12 then 0 else if pm && h ≠ 12 then h + 12 else h
        some (h24 * 60 + (digitVal d1 * 10 + digitVal d2))
      | _, _ => none
    else none
  | _ => none

/-- Anchored 24-hour pattern tail: `: \d\d $`. -/
def parse24core (h : Nat) : List Char → Option Nat
  | [':', d1, d2] =>
    if d1.isDigit && d2.isDigit then
      some (h * 60 + (digitVal d1 * 10 + digitVal d2))
    else none
  | _ => none

/-- Run an anchored `^(\d{1,2})...` pattern with the greedy
one-or-two-digit hour group, continuing with `tail`. -/
def withHourDigits (tail : Nat → List Char → Option Nat) :
    List Char → Option Nat
  | c1 :: c2 :: rest =>
    if c1.isDigit then
      if c2.isDigit then
        match tail (digitVal c1 * 10 + digitVal c2) rest with
        | some r => some r
        | none => tail (digitVal c1) (c2 :: rest)
      else tail (digitVal c1) (c2 :: rest)
    else none
  | _ => none

/-- `parseTimeToMinutes(timeStr)` (clock-in API, lines 174–199): tries
the anchored 12-hour regex, then the anchored 24-hour regex; `null` for
a falsy or non-matching string. -/
def parseTimeToMinutes (o : Option String) : Option Nat :=
  match o with
  | none => none
  | some s =>
    if s = "" then none
    else
      match withHourDigits parse12core s.toList with
      | some v => some v
      | none => withHourDigits parse24core s.toList

/-- An attendance record's four raw time punches. -/
structure TimeRec where
  TimeInAM : Option String
  TimeOutAM : Option String
  TimeInPM : Option String
  TimeOutPM : Option String
  deriving DecidableEq, Repr

/-- One session block of `calculateTotalHours` (the AM block, lines
210–214, and the PM block, lines 217–221, are verbatim copies of each
other): `out − in` minutes when both punches parse and `out > in`, else
nothing. -/
def clampedSessionMinutes (tin tout : Option Nat) : Nat :=
  match tin, tout with
  | some i, some o => if o > i then o - i else 0
  | _, _ => 0

/-- `calculateTotalHours(record)` (lines 206–224): the two session
contributions summed and divided by 60. -/
def calculateTotalHours (record : TimeRec) : ℚ :=
  ((clampedSessionMinutes (parseTimeToMinutes record.TimeInAM)
      (parseTimeToMinutes record.TimeOutAM) +
    clampedSessionMinutes (parseTimeToMinutes record.TimeInPM)
      (parseTimeToMinutes record.TimeOutPM) : Nat) : ℚ) / 60

/-! ### Attendance-form daily computations (`src/attendance.js`)

The HTML `<input type="time">` punches are well-formed `HH:MM` strings or
empty; they are modelled as `Option Nat` minutes since midnight (`none`
for an empty, falsy field), which is exactly what
`split(':').map(Number)` followed by `h * 60 + m` produces. -/

/-- One session's *signed* minute contribution in the attendance-form
paths (lines 368–377 and 1166–1175): no clamping, so an out-time earlier
than the in-time contributes negative minutes. -/
def sessionMinutesSigned (tin tout : Option Nat) : ℤ :=
  match tin, tout with
  | some i, some o => (o : ℤ) - i
  | _, _ => 0

/-- The unlogged-lunch adjustment shared verbatim by
`handleBatchAddSubmit` (lines 388–394) and
`calculateAddAttendanceSummary` (lines 2217–2223):
```js
if (hasAM && hasPM && scheduleSpan && scheduleSpan >= dailyStandardHours
    && actualWorkHours < dailyStandardHours) {
  totalMinutes += 60;
}
```
(`scheduleSpan` is truthy iff it parsed and is nonzero). -/
def lunchAdjustedMinutes (hasAM hasPM : Bool) (scheduleSpan : Option ℚ)
    (dailyStandardHours : ℚ) (rawMinutes : ℤ) : ℤ :=
  match scheduleSpan with
  | some sp =>
    if hasAM ∧ hasPM ∧ sp ≠ 0 ∧ sp ≥ dailyStandardHours ∧
        (rawMinutes : ℚ) / 60 < dailyStandardHours then
      rawMinutes + 60
    else rawMinutes
  | none => rawMinutes

/-- Output of one attendance-form daily computation. -/
structure DailyCalc where
  rawMinutes : ℤ
  totalMinutes : ℤ
  totalHoursWorked : ℚ
  overtimeHours : ℚ
  overTimePay : ℚ
  deriving DecidableEq, Repr

/-- `handleBatchAddSubmit`'s per-day computation (lines 366–403):
raw signed session minutes, the unlogged-lunch adjustment, then
`totalHoursWorked`, `overtimeHours` (zero for Fixed) and `overTimePay`
(`overtimeHours × calculateHourlyRate(employee) × 1.25` for non-Fixed
with positive overtime).  `dailyStandardHours = (standard||40)/7`. -/
def handleBatchAddCompute (inAM outAM inPM outPM : Option Nat)
    (employee : Option Emp) : DailyCalc :=
  let rawMinutes := sessionMinutesSigned inAM outAM + sessionMinutesSigned inPM outPM
  let hasAM := inAM.isSome && outAM.isSome
  let hasPM := inPM.isSome && outPM.isSome
  let dailyStandardHours := stdOr40 employee / 7
  let scheduleSpan := getScheduleSpanHours (coreOf employee)
  let totalMinutes :=
    lunchAdjustedMinutes hasAM hasPM scheduleSpan dailyStandardHours rawMinutes
  let totalHoursWorked : ℚ := (totalMinutes : ℚ) / 60
  let isFixed := isFixedEmp employee
  let overtimeHours : ℚ :=
    if isFixed then 0 else max 0 (totalHoursWorked - dailyStandardHours)
  let overTimePay : ℚ :=
    if ¬isFixed ∧ overtimeHours > 0 then
      overtimeHours * calculateHourlyRateNum employee * 1.25
    else 0
  ⟨rawMinutes, totalMinutes, totalHoursWorked, overtimeHours, overTimePay⟩

/-- The daily standard used by `handleAddAttendanceSubmit` (1182–1188),
`loadBreakdownAttendance` (2916–2923) and `saveBreakdownRecord`
(3616–3621): `standardWorkweekHours/7`, lowered by one hour when the
schedule span equals it and exceeds 8. -/
def adjustedDailyStd (employee : Option Emp) : ℚ :=
  let dailyFromWeekly := stdOr40 employee / 7
  match getScheduleSpanHours (coreOf employee) with
  | some sp => if sp = dailyFromWeekly ∧ sp > 8 then dailyFromWeekly - 1
               else dailyFromWeekly
  | none => dailyFromWeekly

/-- `handleAddAttendanceSubmit`'s computation (lines 1165–1227): signed
session minutes with *no* lunch addition; the schedule instead lowers
the daily standard via `adjustedDailyStd`; overtime fields as in the
batch path. -/
def handleAddAttendanceCompute (inAM outAM inPM outPM : Option Nat)
    (employee : Option Emp) : DailyCalc :=
  let totalMinutes := sessionMinutesSigned inAM outAM + sessionMinutesSigned inPM outPM
  let dailyStandardHours := adjustedDailyStd employee
  let totalHoursWorked : ℚ := (totalMinutes : ℚ) / 60
  let isFixed := isFixedEmp employee
  let overtimeHours : ℚ :=
    if isFixed then 0 else max 0 (totalHoursWorked - dailyStandardHours)
  let overTimePay : ℚ :=
    if ¬isFixed ∧ overtimeHours > 0 then
      overtimeHours * calculateHourlyRateNum employee * 1.25
    else 0
  ⟨totalMinutes, totalMinutes, totalHoursWorked, overtimeHours, overTimePay⟩

/-- `calculateOvertimePay(employeeId, overtimeHours)`
(`src/attendance.js` 631–637) with the employee lookup result passed in.
Note its narrow fixed-check: `String(emp.rateType).toLowerCase() ===
'fixed'` — exact equality, unlike the wide `isFixedEmp` test. -/
def calculateOvertimePay (emp : Option Emp) (overtimeHours : ℚ) : ℚ :=
  match emp with
  | none => 0
  | some e =>
    if lowerStr e.rateType = "fixed" then 0
    else overtimeHours * calculateHourlyRateNum (some e) * 1.25

/-! ### Attendance status classifiers

The status labels used across the three classifier copies, mapped onto
one enumeration (`part_004` prints `Undertime` for the label the other
two copies print as `Short Hours`; both are `shortHours` here). -/

inductive Status where
  | present
  | absent
  | halfDay
  | shortHours
  | overtime
  | invalid
  | inProgress
  | onLeave
  deriving DecidableEq, Repr

/-- Truthiness of an optional string field (`!!field`). -/
def truthyS : Option String → Bool
  | none => false
  | some s => s ≠ ""

/-- `getAttendanceStatusBadge` (`src/unnamed/part_002` 1196–1259),
stripped of its HTML: leave first, then the absent/in-progress split,
then the single-session three-way split, then the both-sessions
three-way split.  `dailyStd = (Number(standardWorkweekHours)||40)/7`,
`tol = 0.01`, `minHalfDay = dailyStd/2 × 0.75`, `minValid = 0.5`. -/
def getAttendanceStatusBadge (timeInAM timeOutAM timeInPM timeOutPM : Option String)
    (isToday : Bool) (leaveType : String) (totalHours : ℚ)
    (employee : Option Emp) : Status :=
  let hasAM := truthyS timeInAM && truthyS timeOutAM
  let hasPM := truthyS timeInPM && truthyS timeOutPM
  let dailyStd := stdOr40 employee / 7
  let minHoursForHalfDay := dailyStd / 2 * 0.75
  let minHoursForValid : ℚ := 0.5
  let tol : ℚ := 0.01
  if leaveType ≠ "" ∧ leaveType ≠ "None" then .onLeave
  else if !hasAM && !hasPM then
    if isToday && (truthyS timeInAM || truthyS timeInPM) then .inProgress
    else .absent
  else if (hasAM && !hasPM) || (!hasAM && hasPM) then
    if isToday then .inProgress
    else if totalHours < minHoursForValid then .invalid
    else if totalHours < minHoursForHalfDay then .shortHours
    else .halfDay
  else if totalHours < dailyStd - tol then .shortHours
  else if totalHours > dailyStd + tol then .overtime
  else .present

/-- The per-record status of `calculateMonthlySummary`
(`src/attendance.js` 663–684); leave records are diverted before this
point, and there is no `isToday` branch in this copy. -/
def summaryStatus (hasAM hasPM : Bool) (total dailyStd : ℚ) : Status :=
  let minHoursForHalfDay := dailyStd / 2 * 0.75
  let minHoursForValid : ℚ := 0.5
  let tol : ℚ := 0.01
  if !hasAM && !hasPM then .absent
  else if (hasAM && !hasPM) || (!hasAM && hasPM) then
    if total < minHoursForValid then .invalid
    else if total < minHoursForHalfDay then .shortHours
    else .halfDay
  else if total < dailyStd - tol then .shortHours
  else if total > dailyStd + tol then .overtime
  else .present

/-- The per-record status of `loadBreakdownAttendance`
(`src/unnamed/part_004` 2958–2992).  Labels: `Undertime` ↦
`shortHours`.  Unlike the other copies it also marks a both-sessions
record with negative hours `Invalid`, and the `dailyStandardHours` it
receives may have been lowered by the lunch adjustment. -/
def breakdownStatus (hasAM hasPM : Bool) (totalHoursWorked dailyStandardHours : ℚ) :
    Status :=
  let minHoursForHalfDay := dailyStandardHours / 2 * 0.75
  let minHoursForValid : ℚ := 0.5
  let tol : ℚ := 0.01
  let isAbsent := !hasAM && !hasPM
  let isHalfDay := (hasAM && !hasPM) || (!hasAM && hasPM)
  if isAbsent then .absent
  else if isHalfDay then
    if totalHoursWorked < minHoursForValid then .invalid
    else if totalHoursWorked < minHoursForHalfDay then .shortHours
    else .halfDay
  else if totalHoursWorked < 0 then .invalid
  else if totalHoursWorked < dailyStandardHours - tol then .shortHours
  else if totalHoursWorked > dailyStandardHours + tol then .overtime
  else .present

/-! ### Period aggregation and the Perfect Attendance Bonus
(`src/unnamed/part_004` `loadBreakdownAttendance`, 2859–3199)

The calendar is environmental input: the walk
`for d = start; d <= end; d++` over the period is supplied as the list
of weekday indices (`getDay()`: 0 = Sunday … 6 = Saturday) of the days
in range, and `end.getDate()` as `endDay`.  The sibling 1st-cutoff fetch
result is supplied as the list of its records' *stored* `Status` fields,
which is all the source reads from them. -/

/-- A current-cutoff attendance record as `loadBreakdownAttendance`
reads it. -/
structure BRec where
  TimeInAM : Option String
  TimeOutAM : Option String
  TimeInPM : Option String
  TimeOutPM : Option String
  TotalHoursWorked : ℚ
  deriving DecidableEq, Repr

/-- The status `loadBreakdownAttendance` computes for one record. -/
def brecStatus (r : BRec) (dailyStandardHours : ℚ) : Status :=
  breakdownStatus (truthyS r.TimeInAM && truthyS r.TimeOutAM)
    (truthyS r.TimeInPM && truthyS r.TimeOutPM) r.TotalHoursWorked dailyStandardHours

/-- `totalDays`: records whose status is in
`{Present, Late, Overtime, Undertime, Half Day}` (the classifier never
produces `Late`, which is nevertheless in the source's list). -/
def countTotalDays (records : List BRec) (dailyStd : ℚ) : Nat :=
  (records.filter (fun r =>
    match brecStatus r dailyStd with
    | .present | .overtime | .shortHours | .halfDay => true
    | _ => false)).length

/-- `totalAbsent`. -/
def countAbsent (records : List BRec) (dailyStd : ℚ) : Nat :=
  (records.filter (fun r => brecStatus r dailyStd = .absent)).length

/-- `totalInvalid`. -/
def countInvalid (records : List BRec) (dailyStd : ℚ) : Nat :=
  (records.filter (fun r => brecStatus r dailyStd = .invalid)).length

/-- `expectedWorkingDays`: Monday–Saturday days of the walked range
(lines 3128–3135). -/
def expectedWorkingDays (dows : List Nat) : Nat :=
  (dows.filter (fun d => 1 ≤ d ∧ d ≤ 6)).length

/-- The sibling 1st-cutoff check (lines 3164–3175): requires a non-empty
fetch, then zero stored `Absent`/`absent` statuses, zero stored
`Invalid`/`invalid` statuses, and coverage of the 1st cutoff's expected
working days. -/
def firstCutPerfect (firstCutStatuses : List String) (firstCutExpectedDays : Nat) :
    Bool :=
  match firstCutStatuses with
  | [] => false
  | _ =>
    let firstCutAbsents :=
      (firstCutStatuses.filter (fun s => s = "Absent" ∨ s = "absent")).length
    let firstCutInvalid :=
      (firstCutStatuses.filter (fun s => s = "Invalid" ∨ s = "invalid")).length
    firstCutAbsents = 0 ∧ firstCutInvalid = 0 ∧
      firstCutStatuses.length ≥ firstCutExpectedDays

/-- The Perfect Attendance Bonus of `loadBreakdownAttendance`
(lines 3124–3199): `dailyRate` exactly when the period is a 2nd cutoff
(`endDay ≥ 16`), the current cutoff is perfect
(`totalAbsent = 0 ∧ totalInvalid = 0 ∧ totalDays ≥ expectedWorkingDays ∧
expectedWorkingDays > 0`), and the sibling 1st cutoff passes
`firstCutPerfect`; `0` otherwise.  `dailyRate = (baseSalary||0)/30`. -/
def perfectAttendanceBonus (employee : Option Emp) (records : List BRec)
    (periodDows : List Nat) (endDay : Nat)
    (firstCutStatuses : List String) (firstCutDows : List Nat) : ℚ :=
  let dailyRate := baseOr0 employee / 30
  let dailyStd := adjustedDailyStd employee
  let totalDays := countTotalDays records dailyStd
  let totalAbsent := countAbsent records dailyStd
  let totalInvalid := countInvalid records dailyStd
  let expected := expectedWorkingDays periodDows
  let is2ndCut := endDay ≥ 16
  let hasCurrentPeriodPerfect :=
    totalAbsent = 0 ∧ totalInvalid = 0 ∧ totalDays ≥ expected ∧ expected > 0
  let has1stCutPerfect :=
    if is2ndCut then firstCutPerfect firstCutStatuses (expectedWorkingDays firstCutDows)
    else True
  if is2ndCut ∧ hasCurrentPeriodPerfect ∧ has1stCutPerfect then dailyRate else 0

/-! ### Advance deduction and net-pay save
(`src/unnamed/part_004` `setAdvanceDeduction` 2694–2744 and
`saveBreakdownRecord` 3538–3782, state and arithmetic only) -/

/-- The module state `currentAdvanceDeductionData`. -/
structure AdvanceState where
  outstandingBalance : ℚ
  deductionAmount : ℚ
  deriving DecidableEq, Repr

/-- `setAdvanceDeduction(shouldDeduct)`: deduct the full outstanding
balance, or skip (set the planned deduction to 0).  The outstanding
balance itself is never modified. -/
def setAdvanceDeduction (shouldDeduct : Bool) (st : AdvanceState) : AdvanceState :=
  if shouldDeduct then { st with deductionAmount := st.outstandingBalance }
  else { st with deductionAmount := 0 }

/-- The period figures `saveBreakdownRecord` reads from
`currentBreakdownContext.calculatedData` (all number-valued). -/
structure CalcData where
  totalEarnings : ℚ
  sssContribution : ℚ
  philHealthContribution : ℚ
  pagIbigContribution : ℚ
  withholdingTax : ℚ
  otherDeductions : ℚ
  lateDed : ℚ
  absentDed : ℚ
  excludeAllDeductions : Bool
  deriving DecidableEq, Repr

/-- What `saveBreakdownRecord` computes and persists (the fields the
advance-skip claim is about). -/
structure SaveResult where
  netPay : ℚ
  totalDeductions : ℚ
  advanceDeduction : ℚ
  outstandingAdvance : ℚ
  warnAdvanceNotDeducted : Bool
  deriving DecidableEq, Repr

/-- The pure computation of `saveBreakdownRecord` (lines 3545–3605):
re-zero the planned deduction if the skip checkbox is checked, read the
outstanding balance for the caller warning
(`outstandingAdvance > 0 && plannedDeduction === 0` raises the
confirmation dialog), apply the exclude-all-deductions override to the
four statutory figures, and recompute `totalDeductions`/`netPay` in
full. -/
def saveBreakdownCompute (data : CalcData) (st : AdvanceState)
    (skipChecked : Bool) : SaveResult :=
  let st := if skipChecked then { st with deductionAmount := 0 } else st
  let outstandingAdvance := st.outstandingBalance
  let plannedDeduction := st.deductionAmount
  let warn := outstandingAdvance > 0 ∧ plannedDeduction = 0
  let sss := if data.excludeAllDeductions then 0 else data.sssContribution
  let ph := if data.excludeAllDeductions then 0 else data.philHealthContribution
  let pagibig := if data.excludeAllDeductions then 0 else data.pagIbigContribution
  let tax := if data.excludeAllDeductions then 0 else data.withholdingTax
  let govtContributionsTotal := sss + ph + pagibig + tax
  let grossPay := data.totalEarnings
  let advanceDeduction := st.deductionAmount
  let totalDeductions := govtContributionsTotal + advanceDeduction +
    data.otherDeductions + data.lateDed + data.absentDed
  let netPay := grossPay - totalDeductions
  ⟨netPay, totalDeductions, advanceDeduction, outstandingAdvance, decide warn⟩

/-! ### Record creation paths and duplicate handling
(`src/attendance.js` 1148–1158 / 225–295 / 345–433,
`src/clock-in-api.js` 556–586 and 697–701)

The remote store is a list of records keyed by `(employeeId, date)`;
the Airtable `POST` of `add` unconditionally appends a new row. -/

structure AttKey where
  employeeId : String
  date : String
  deriving DecidableEq, Repr

/-- `exists(employeeId, date)`: is there a record with this key. -/
def existsRec (store : List AttKey) (employeeId date : String) : Bool :=
  store.any (fun r => r.employeeId = employeeId ∧ r.date = date)

/-- `add(attendance)` (`src/clock-in-api.js` 558–586): plain `POST`,
creating one more row; no uniqueness check of its own. -/
def addApi (store : List AttKey) (r : AttKey) : List AttKey :=
  store ++ [r]

inductive AddError where
  | DuplicateRecord
  deriving DecidableEq, Repr

/-- The single-add path `handleAddAttendanceSubmit` (1148–1158 then
1232): check `exists` first and reject with the duplicate modal, else
`add`. -/
def singleAddPath (store : List AttKey) (r : AttKey) :
    Except AddError (List AttKey) :=
  if existsRec store r.employeeId r.date then .error .DuplicateRecord
  else .ok (addApi store r)

/-- One batch item: the preview (lines 225–257) marks a date skipped
only when the _Skip existing_ box is checked and the date is among the
employee's existing dates; `handleBatchAddSubmit` then calls `add` for
every non-skipped item with no further check. -/
def batchItemAdd (skipExisting : Bool) (existingDates : List String)
    (store : List AttKey) (r : AttKey) : List AttKey :=
  if skipExisting ∧ r.date ∈ existingDates then store
  else addApi store r

/-- Records in `store` with the given key. -/
def recordsWithKey (store : List AttKey) (r : AttKey) : Nat :=
  (store.filter (fun x => x = r)).length

/-! ### Claim-side definitions

The following definitions transcribe the *spec's wording* (not the
source) and exist only to be compared against the source-derived
definitions above. -/

/-- Spec §4.2 step 1, as worded by the claim:
`amMinutes = max(0, timeOutAM − timeInAM)` if both AM punches are
present, else 0 (symmetric for PM). -/
def claimSessionMinutes (tin tout : Option Nat) : ℤ :=
  match tin, tout with
  | some i, some o => max 0 ((o : ℤ) - i)
  | _, _ => 0

/-- Spec §4.3 step 3 as worded by the claim: the three-way split for an
exactly-one-session record on a past day with no leave. -/
def claimHalfDayStatus (totalHoursWorked dailyStandardHours : ℚ) : Status :=
  if totalHoursWorked < 0.5 then .invalid
  else if totalHoursWorked < dailyStandardHours / 2 * 0.75 then .shortHours
  else .halfDay

/-- Stored-`Status` Absent count of the sibling 1st cutoff. -/
def firstCutAbsents (firstCutStatuses : List String) : Nat :=
  (firstCutStatuses.filter (fun s => s = "Absent" ∨ s = "absent")).length

/-- Stored-`Status` Invalid count of the sibling 1st cutoff. -/
def firstCutInvalids (firstCutStatuses : List String) : Nat :=
  (firstCutStatuses.filter (fun s => s = "Invalid" ∨ s = "invalid")).length

/-- The Perfect-Attendance eligibility condition exactly as the claim
words it: end day ≥ 16, current cutoff has zero Absent and zero Invalid
records and `totalDays ≥ expectedWorkingDays`, and the sibling 1st
cutoff independently has zero Absent and zero Invalid records and covers
its own expected working days.  (Unlike the source's condition, this
does not require `expectedWorkingDays > 0`.) -/
def claimPerfectCond (employee : Option Emp) (records : List BRec)
    (periodDows : List Nat) (endDay : Nat)
    (firstCutStatuses : List String) (firstCutDows : List Nat) : Prop :=
  let dailyStd := adjustedDailyStd employee
  endDay ≥ 16 ∧
  countAbsent records dailyStd = 0 ∧ countInvalid records dailyStd = 0 ∧
  countTotalDays records dailyStd ≥ expectedWorkingDays periodDows ∧
  firstCutAbsents firstCutStatuses = 0 ∧ firstCutInvalids firstCutStatuses = 0 ∧
  firstCutStatuses.length ≥ expectedWorkingDays firstCutDows

instance (employee : Option Emp) (records : List BRec)
    (periodDows : List Nat) (endDay : Nat)
    (firstCutStatuses : List String) (firstCutDows : List Nat) :
    Decidable (claimPerfectCond employee records periodDows endDay
      firstCutStatuses firstCutDows) := by
  unfold claimPerfectCond; infer_instance

end Clock

/-! ## Theorems for the claims -/

/-- **C1**: for every Fixed-compensation employee (wide substring test on
rate/employment type) and every input combination, the overtime hours and
overtime pay computed by the clock-in API, the batch-add path and the
single-add path are 0, and `calculateOvertimePay` applied to the overtime
hours such a record carries is 0. -/
theorem C1_fixed_no_overtime (employee : Option Clock.Emp)
    (hfix : Clock.isFixedEmp employee = true) :
    (∀ totalHours : ℚ,
      (Clock.calculateOvertimeFields totalHours employee).OvertimeHours = 0 ∧
      (Clock.calculateOvertimeFields totalHours employee).OverTimePay = 0) ∧
    (∀ inAM outAM inPM outPM : Option Nat,
      (Clock.handleBatchAddCompute inAM outAM inPM outPM employee).overtimeHours = 0 ∧
      (Clock.handleBatchAddCompute inAM outAM inPM outPM employee).overTimePay = 0 ∧
      Clock.calculateOvertimePay employee
        (Clock.handleBatchAddCompute inAM outAM inPM outPM employee).overtimeHours = 0) ∧
    (∀ inAM outAM inPM outPM : Option Nat,
      (Clock.handleAddAttendanceCompute inAM outAM inPM outPM employee).overtimeHours = 0 ∧
      (Clock.handleAddAttendanceCompute inAM outAM inPM outPM employee).overTimePay = 0) := by
  refine ⟨fun totalHours => ?_, fun a b c d => ⟨?_, ?_, ?_⟩, fun a b c d => ⟨?_, ?_⟩⟩
  all_goals rcases employee with _ | e <;>
    simp_all [Clock.calculateOvertimeFields, Clock.handleBatchAddCompute,
      Clock.handleAddAttendanceCompute, Clock.calculateOvertimePay, Clock.isFixedEmp]

/-- Witness for C1 at a concrete Fixed employee. -/
theorem C1_fixed_no_overtime_witness :
    (Clock.calculateOvertimeFields 12 (some ⟨3000, 40, "Fixed", "", none⟩)).OverTimePay = 0 :=
  ((C1_fixed_no_overtime (some ⟨3000, 40, "Fixed", "", none⟩) (by decide)).1 12).2

/-- **C4** (as claimed): when the caller skips the advance deduction, the
persisted figures carry `advanceDeduction = 0`, the net pay is exactly
the outstanding balance *higher* than with the default full deduction
(i.e. the balance was not subtracted), the result still carries the
un-deducted `outstandingAdvance`, and the not-deducted warning fires. -/
theorem C4_skip_advance_keeps_outstanding (data : Clock.CalcData)
    (st : Clock.AdvanceState) (hpos : 0 < st.outstandingBalance) :
    (Clock.saveBreakdownCompute data (Clock.setAdvanceDeduction false st) true).advanceDeduction = 0 ∧
    (Clock.saveBreakdownCompute data (Clock.setAdvanceDeduction false st) true).outstandingAdvance
      = st.outstandingBalance ∧
    (Clock.saveBreakdownCompute data (Clock.setAdvanceDeduction false st) true).netPay
      = (Clock.saveBreakdownCompute data (Clock.setAdvanceDeduction true st) false).netPay
        + st.outstandingBalance ∧
    (Clock.saveBreakdownCompute data (Clock.setAdvanceDeduction false st) true).warnAdvanceNotDeducted
      = true := by
  refine ⟨?_, ?_, ?_, ?_⟩
  all_goals simp [Clock.saveBreakdownCompute, Clock.setAdvanceDeduction, hpos]
  ring

/-- Witness for C4 at an outstanding balance of 2000. -/
theorem C4_skip_advance_keeps_outstanding_witness :
    (Clock.saveBreakdownCompute ⟨30000, 500, 300, 100, 200, 0, 0, 0, false⟩
        (Clock.setAdvanceDeduction false ⟨2000, 2000⟩) true).outstandingAdvance = 2000 ∧
    (Clock.saveBreakdownCompute ⟨30000, 500, 300, 100, 200, 0, 0, 0, false⟩
        (Clock.setAdvanceDeduction false ⟨2000, 2000⟩) true).netPay
      = (Clock.saveBreakdownCompute ⟨30000, 500, 300, 100, 200, 0, 0, 0, false⟩
          (Clock.setAdvanceDeduction true ⟨2000, 2000⟩) false).netPay + 2000 :=
  ⟨(C4_skip_advance_keeps_outstanding _ ⟨2000, 2000⟩ (by norm_num)).2.1,
   (C4_skip_advance_keeps_outstanding _ ⟨2000, 2000⟩ (by norm_num)).2.2.1⟩

/-- **C9, counterexample**: two create requests for the same
`(employeeId, date)` via the batch path with the skip-existing box
unchecked: the second is *not* rejected — the store ends with two records
carrying the same key. -/
theorem C9_counterexample_batch_duplicate :
    Clock.batchItemAdd false [] [⟨"E1", "2026-01-05"⟩] ⟨"E1", "2026-01-05"⟩
      = [⟨"E1", "2026-01-05"⟩, ⟨"E1", "2026-01-05"⟩] ∧
    Clock.recordsWithKey
      (Clock.batchItemAdd false [] [⟨"E1", "2026-01-05"⟩] ⟨"E1", "2026-01-05"⟩)
      ⟨"E1", "2026-01-05"⟩ = 2 := by
  constructor <;> decide

/-- **C9, amended**: only the single-add path rejects a duplicate key
(deterministically, without touching the store); when the key is new it
appends exactly one record; the batch path avoids a duplicate only when
the skip-existing flag is set and the date is among the employee's known
dates — otherwise it appends unconditionally. -/
theorem C9_duplicate_handling (store : List Clock.AttKey) (r : Clock.AttKey) :
    (Clock.existsRec store r.employeeId r.date = true →
      Clock.singleAddPath store r = .error .DuplicateRecord) ∧
    (Clock.existsRec store r.employeeId r.date = false →
      Clock.singleAddPath store r = .ok (store ++ [r])) ∧
    (∀ dates : List String, r.date ∈ dates →
      Clock.batchItemAdd true dates store r = store) ∧
    (∀ dates : List String, r.date ∉ dates →
      Clock.batchItemAdd true dates store r = store ++ [r]) := by
  refine ⟨fun h => ?_, fun h => ?_, fun dates h => ?_, fun dates h => ?_⟩ <;>
    simp [Clock.singleAddPath, Clock.batchItemAdd, Clock.addApi, h]

/-- Witness for C9 on a concrete store. -/
theorem C9_duplicate_handling_witness :
    Clock.singleAddPath [⟨"E1", "2026-01-05"⟩] ⟨"E1", "2026-01-05"⟩
      = .error .DuplicateRecord :=
  (C9_duplicate_handling [⟨"E1", "2026-01-05"⟩] ⟨"E1", "2026-01-05"⟩).1 (by decide)

/-- **C10, counterexample**: the clock-in copy of `calculateHourlyRate`
violates the claim twice over.  Given a truthy non-numeric `baseSalary`
(e.g. the string `"abc"`), it returns `NaN`, not 0; and given a truthy
`standardWorkweekHours` that numerically coerces to 0 (e.g. the string
`"0"`), the value passes the `|| 40` guard, the `daily` divisor becomes
the number 0, and the function divides by zero, returning `Infinity`. -/
theorem C10_counterexample_clock_nan_and_div_zero :
    Clock.calculateHourlyRateClock (some ⟨Clock.JVal.other, Clock.JVal.num 40⟩)
      = Clock.JSNum.nan ∧
    Clock.dailyDivisorClock (some ⟨Clock.JVal.num 3000, Clock.JVal.strNum 0⟩)
      = Clock.JSNum.num 0 ∧
    Clock.calculateHourlyRateClock (some ⟨Clock.JVal.num 3000, Clock.JVal.strNum 0⟩)
      = Clock.JSNum.inf ∧
    Clock.JSNum.nan ≠ Clock.JSNum.num 0 := by
  refine ⟨?_, ?_, ?_, by simp⟩
  · norm_num [Clock.calculateHourlyRateClock, Clock.getBase, Clock.getStd,
      Clock.JVal.truthy, Clock.toNumber, Clock.jsDiv]
  · norm_num [Clock.dailyDivisorClock, Clock.getStd, Clock.JVal.truthy,
      Clock.toNumber, Clock.jsDiv]
  · norm_num [Clock.calculateHourlyRateClock, Clock.getBase, Clock.getStd,
      Clock.JVal.truthy, Clock.toNumber, Clock.jsDiv]

/-- **C10, amended**: the attendance copy (which coerces both fields
with `Number(...)`) terminates with a finite number on every employee
object, never divides by zero (its `daily` divisor is never the number
0; a falsy or `NaN` `standardWorkweekHours` is replaced by 40), and
returns exactly 0 whenever `baseSalary` is missing, zero, or
non-numeric.  The clock-in copy returns 0 for every *falsy* `baseSalary`
(missing, zero, `NaN`), but it propagates `NaN` for a truthy non-numeric
`baseSalary`, and for a truthy `standardWorkweekHours` coercing to 0 its
`daily` divisor *is* the number 0 — it divides by zero (see the
counterexample). -/
theorem C10_hourly_rate_safety (emp : Option Clock.JEmp) :
    (∃ q : ℚ, Clock.calculateHourlyRateAtt emp = .num q) ∧
    Clock.dailyDivisorAtt emp ≠ Clock.JSNum.num 0 ∧
    ((Clock.toNumber (Clock.getBase emp) = .nan ∨
      Clock.toNumber (Clock.getBase emp) = .num 0) →
      Clock.calculateHourlyRateAtt emp = .num 0) ∧
    ((Clock.getBase emp).truthy = false →
      Clock.calculateHourlyRateClock emp = .num 0) ∧
    (Clock.getStd emp = Clock.JVal.strNum 0 →
      Clock.dailyDivisorClock emp = Clock.JSNum.num 0) := by
  have h7 : (7 : ℚ) ≠ 0 := by norm_num
  have hbase : ∀ v : Clock.JVal, ∃ b : ℚ,
      Clock.orNum (Clock.toNumber v) 0 = Clock.JSNum.num b := by
    intro v
    cases v with
    | undef => exact ⟨0, rfl⟩
    | nanV => exact ⟨0, rfl⟩
    | other => exact ⟨0, rfl⟩
    | num q =>
      by_cases hq : q = 0
      · subst hq; exact ⟨0, by simp [Clock.orNum, Clock.toNumber, Clock.JSNum.truthy]⟩
      · exact ⟨q, by simp [Clock.orNum, Clock.toNumber, Clock.JSNum.truthy, hq]⟩
    | strNum q =>
      by_cases hq : q = 0
      · subst hq; exact ⟨0, by simp [Clock.orNum, Clock.toNumber, Clock.JSNum.truthy]⟩
      · exact ⟨q, by simp [Clock.orNum, Clock.toNumber, Clock.JSNum.truthy, hq]⟩
  have hstd : ∀ v : Clock.JVal, ∃ s : ℚ, s ≠ 0 ∧
      Clock.orNum (Clock.toNumber v) 40 = Clock.JSNum.num s := by
    intro v
    cases v with
    | undef => exact ⟨40, by norm_num, rfl⟩
    | nanV => exact ⟨40, by norm_num, rfl⟩
    | other => exact ⟨40, by norm_num, rfl⟩
    | num q =>
      by_cases hq : q = 0
      · subst hq
        exact ⟨40, by norm_num, by simp [Clock.orNum, Clock.toNumber, Clock.JSNum.truthy]⟩
      · exact ⟨q, hq, by simp [Clock.orNum, Clock.toNumber, Clock.JSNum.truthy, hq]⟩
    | strNum q =>
      by_cases hq : q = 0
      · subst hq
        exact ⟨40, by norm_num, by simp [Clock.orNum, Clock.toNumber, Clock.JSNum.truthy]⟩
      · exact ⟨q, hq, by simp [Clock.orNum, Clock.toNumber, Clock.JSNum.truthy, hq]⟩
  have jsDiv_num : ∀ (a c : ℚ), c ≠ 0 →
      Clock.jsDiv (.num a) (.num c) = .num (a / c) := by
    intro a c hc
    simp [Clock.jsDiv, hc]
  obtain ⟨b, hb⟩ := hbase (Clock.getBase emp)
  obtain ⟨s, hs0, hs⟩ := hstd (Clock.getStd emp)
  have hs7 : s / 7 ≠ 0 := div_ne_zero hs0 h7
  refine ⟨?_, ?_, ?_, ?_, ?_⟩
  · simp only [Clock.calculateHourlyRateAtt, hb, hs]
    rw [jsDiv_num s 7 h7, jsDiv_num b 30 (by norm_num),
      jsDiv_num (b / 30) (s / 7) hs7]
    by_cases hb0 : b = 0
    · subst hb0
      exact ⟨0, by simp [Clock.JSNum.truthy]⟩
    · refine ⟨b / 30 / (s / 7), ?_⟩
      simp [Clock.JSNum.truthy, hb0]
  · simp only [Clock.dailyDivisorAtt, hs]
    rw [jsDiv_num s 7 h7]
    simp [hs7]
  · intro h
    have hb0 : Clock.orNum (Clock.toNumber (Clock.getBase emp)) 0 = Clock.JSNum.num 0 := by
      rcases h with h | h <;> simp [h, Clock.orNum, Clock.JSNum.truthy]
    simp [Clock.calculateHourlyRateAtt, hb0, Clock.JSNum.truthy]
  · intro h
    rcases hbv : Clock.getBase emp with _ | _ | q | q | _
    · simp [Clock.calculateHourlyRateClock, hbv, Clock.JVal.truthy]
    · simp [Clock.calculateHourlyRateClock, hbv, Clock.JVal.truthy]
    · rw [hbv] at h
      have hq : q = 0 := by simpa [Clock.JVal.truthy] using h
      subst hq
      simp [Clock.calculateHourlyRateClock, hbv, Clock.JVal.truthy]
    · rw [hbv] at h
      simp [Clock.JVal.truthy] at h
    · rw [hbv] at h
      simp [Clock.JVal.truthy] at h
  · intro h
    simp [Clock.dailyDivisorClock, h, Clock.JVal.truthy, Clock.toNumber, Clock.jsDiv, h7]

/-- Witness for C10 at concrete malformed employees: the attendance copy
returns 0 on a non-numeric `baseSalary`, and the clock-in copy's divisor
is 0 on a truthy zero-coercing `standardWorkweekHours`. -/
theorem C10_hourly_rate_safety_witness :
    Clock.calculateHourlyRateAtt (some ⟨Clock.JVal.other, Clock.JVal.num 40⟩)
      = .num 0 ∧
    Clock.dailyDivisorClock (some ⟨Clock.JVal.num 3000, Clock.JVal.strNum 0⟩)
      = Clock.JSNum.num 0 :=
  ⟨(C10_hourly_rate_safety (some ⟨Clock.JVal.other, Clock.JVal.num 40⟩)).2.2.1
      (Or.inl rfl),
   (C10_hourly_rate_safety (some ⟨Clock.JVal.num 3000, Clock.JVal.strNum 0⟩)).2.2.2.2
      rfl⟩

/-- **C6, counterexample**: in the attendance-form path
(`handleAddAttendanceSubmit`), an AM out-punch of 08:00 against an
in-punch of 12:00 contributes −240 minutes — the raw worked minutes go
negative, and the session contribution differs from the claimed
`max(0, out − in)` formula. -/
theorem C6_counterexample_negative_minutes :
    (Clock.handleAddAttendanceCompute (some 720) (some 480) none none none).rawMinutes < 0 ∧
    Clock.sessionMinutesSigned (some 720) (some 480)
      ≠ Clock.claimSessionMinutes (some 720) (some 480) := by
  constructor <;> decide

/-- **C6, amended**: the clock-in API's `calculateTotalHours` does
satisfy the claim: each session contributes exactly
`max(0, out − in)` minutes (0 when a punch is missing or unparsable),
hence its result is never negative.  (The attendance-form paths instead
sum signed differences — see the counterexample.) -/
theorem C6_clamped_session_minutes (record : Clock.TimeRec) :
    Clock.calculateTotalHours record =
      ((Clock.claimSessionMinutes (Clock.parseTimeToMinutes record.TimeInAM)
          (Clock.parseTimeToMinutes record.TimeOutAM) +
        Clock.claimSessionMinutes (Clock.parseTimeToMinutes record.TimeInPM)
          (Clock.parseTimeToMinutes record.TimeOutPM) : ℤ) : ℚ) / 60 ∧
    0 ≤ Clock.calculateTotalHours record := by
  have key : ∀ a b : Option Nat,
      ((Clock.clampedSessionMinutes a b : ℤ)) = Clock.claimSessionMinutes a b := by
    intro a b
    rcases a with _ | i <;> rcases b with _ | o <;>
      simp only [Clock.clampedSessionMinutes, Clock.claimSessionMinutes, Int.natCast_zero]
    split <;> omega
  constructor
  · unfold Clock.calculateTotalHours
    rw [← key, ← key]
    push_cast
    ring
  · unfold Clock.calculateTotalHours
    positivity

/-- **C8**: the Schedule Span Resolver is a total function (hence never
throws): it yields `null` for a missing field, `''`, `'N/A'`, a
descriptor that does not split into exactly two dash-separated parts,
and a descriptor either of whose trimmed halves fails the
`H:MM AM/PM` search; on every parsable descriptor it returns the pure
value `(endMinutes − startMinutes) / 60`. -/
theorem C8_schedule_span_resolver (core : Option String) :
    (core = none → Clock.getScheduleSpanHours core = none) ∧
    (core = some "" → Clock.getScheduleSpanHours core = none) ∧
    (core = some "N/A" → Clock.getScheduleSpanHours core = none) ∧
    (∀ s : String, core = some s → s ≠ "" → s ≠ "N/A" →
      (∀ a b : List Char, (Clock.splitDash s.toList).map Clock.trimL ≠ [a, b]) →
      Clock.getScheduleSpanHours core = none) ∧
    (∀ (s : String) (a b : List Char), core = some s → s ≠ "" → s ≠ "N/A" →
      (Clock.splitDash s.toList).map Clock.trimL = [a, b] →
      (Clock.parseTo24hr a = none ∨ Clock.parseTo24hr b = none) →
      Clock.getScheduleSpanHours core = none) ∧
    (∀ (s : String) (a b : List Char) (x y : Nat), core = some s →
      s ≠ "" → s ≠ "N/A" →
      (Clock.splitDash s.toList).map Clock.trimL = [a, b] →
      Clock.parseTo24hr a = some x → Clock.parseTo24hr b = some y →
      Clock.getScheduleSpanHours core = some (((y : ℚ) - x) / 60)) := by
  refine ⟨?_, ?_, ?_, ?_, ?_, ?_⟩
  · rintro rfl; rfl
  · rintro rfl; rfl
  · rintro rfl; rfl
  · rintro s rfl hs1 hs2 hab
    simp only [Clock.getScheduleSpanHours, Clock.spanMinutes]
    have hcond : (s = "" || s = "N/A") = false := by simp [hs1, hs2]
    simp only [hcond, Bool.false_eq_true, if_false]
    rcases hL : (Clock.splitDash s.toList).map Clock.trimL with _ | ⟨a, _ | ⟨b, _ | ⟨c, t⟩⟩⟩
    · rfl
    · rfl
    · exact absurd hL (hab a b)
    · rfl
  · rintro s a b rfl hs1 hs2 hparts hpp
    simp only [Clock.getScheduleSpanHours, Clock.spanMinutes]
    have hcond : (s = "" || s = "N/A") = false := by simp [hs1, hs2]
    simp only [hcond, Bool.false_eq_true, if_false]
    rw [hparts]
    rcases hpp with h | h
    · simp [Clock.spanFromParts, h]
    · rcases hA : Clock.parseTo24hr a with _ | x <;> simp [Clock.spanFromParts, h, hA]
  · rintro s a b x y rfl hs1 hs2 hparts hx hy
    simp only [Clock.getScheduleSpanHours, Clock.spanMinutes]
    have hcond : (s = "" || s = "N/A") = false := by simp [hs1, hs2]
    simp only [hcond, Bool.false_eq_true, if_false]
    rw [hparts]
    have hsp : Clock.spanFromParts [a, b] = some ((y : ℤ) - x) := by
      simp [Clock.spanFromParts, hx, hy]
    simp only [hsp, Option.map_some', Option.some.injEq]
    push_cast
    ring

/-- Helper: the unlogged-lunch rule adds exactly 60 minutes under the
spec's conditions (given a positive daily standard, which also makes the
source's truthiness test on the span agree with the span being known),
and leaves the minutes unchanged otherwise. -/
theorem lunchAdjustedMinutes_spec (hasAM hasPM : Bool) (span : Option ℚ)
    (dStd : ℚ) (raw : ℤ) (hd : 0 < dStd) :
    ((hasAM = true ∧ hasPM = true ∧ (∃ sp, span = some sp ∧ dStd ≤ sp) ∧
        (raw : ℚ) / 60 < dStd) →
      Clock.lunchAdjustedMinutes hasAM hasPM span dStd raw = raw + 60) ∧
    ((¬(hasAM = true ∧ hasPM = true ∧ (∃ sp, span = some sp ∧ dStd ≤ sp) ∧
        (raw : ℚ) / 60 < dStd)) →
      Clock.lunchAdjustedMinutes hasAM hasPM span dStd raw = raw) := by
  constructor
  · rintro ⟨h1, h2, ⟨sp, rfl, hge⟩, hlt⟩
    simp only [Clock.lunchAdjustedMinutes]
    rw [if_pos]
    exact ⟨h1, h2, (lt_of_lt_of_le hd hge).ne', hge, hlt⟩
  · intro hn
    rcases span with _ | sp
    · rfl
    · simp only [Clock.lunchAdjustedMinutes]
      rw [if_neg]
      rintro ⟨h1, h2, hne, hge, hlt⟩
      exact hn ⟨h1, h2, ⟨sp, rfl, hge⟩, hlt⟩

/-- **C5**: in the batch-add path (and the identical live-summary rule),
exactly 60 minutes are added to the worked minutes precisely when both
sessions are present, the schedule span is known and at least the daily
standard, and the raw hours are below the daily standard; in every other
case the minutes are unchanged.  The hypothesis `0 < stdOr40 employee`
holds for every employee record whose weekly-hours field is not negative
(missing or zero fields default to 40). -/
theorem C5_unlogged_lunch_heuristic (inAM outAM inPM outPM : Option Nat)
    (employee : Option Clock.Emp) (hstd : 0 < Clock.stdOr40 employee) :
    ((inAM.isSome = true ∧ outAM.isSome = true ∧ inPM.isSome = true ∧
        outPM.isSome = true ∧
        (∃ sp, Clock.getScheduleSpanHours (Clock.coreOf employee) = some sp ∧
          Clock.stdOr40 employee / 7 ≤ sp) ∧
        ((Clock.handleBatchAddCompute inAM outAM inPM outPM employee).rawMinutes : ℚ) / 60
          < Clock.stdOr40 employee / 7) →
      (Clock.handleBatchAddCompute inAM outAM inPM outPM employee).totalMinutes
        = (Clock.handleBatchAddCompute inAM outAM inPM outPM employee).rawMinutes + 60) ∧
    ((¬(inAM.isSome = true ∧ outAM.isSome = true ∧ inPM.isSome = true ∧
        outPM.isSome = true ∧
        (∃ sp, Clock.getScheduleSpanHours (Clock.coreOf employee) = some sp ∧
          Clock.stdOr40 employee / 7 ≤ sp) ∧
        ((Clock.handleBatchAddCompute inAM outAM inPM outPM employee).rawMinutes : ℚ) / 60
          < Clock.stdOr40 employee / 7)) →
      (Clock.handleBatchAddCompute inAM outAM inPM outPM employee).totalMinutes
        = (Clock.handleBatchAddCompute inAM outAM inPM outPM employee).rawMinutes) := by
  have hdpos : 0 < Clock.stdOr40 employee / 7 := by positivity
  have main := lunchAdjustedMinutes_spec (inAM.isSome && outAM.isSome)
      (inPM.isSome && outPM.isSome)
      (Clock.getScheduleSpanHours (Clock.coreOf employee))
      (Clock.stdOr40 employee / 7)
      (Clock.sessionMinutesSigned inAM outAM + Clock.sessionMinutesSigned inPM outPM)
      hdpos
  constructor
  · rintro ⟨h1, h2, h3, h4, hsp, hlt⟩
    exact main.1 ⟨by simp [h1, h2], by simp [h3, h4], hsp, hlt⟩
  · intro hn
    refine main.2 ?_
    rintro ⟨h12, h34, hsp, hlt⟩
    rw [Bool.and_eq_true] at h12 h34
    exact hn ⟨h12.1, h12.2, h34.1, h34.2, hsp, hlt⟩

/-- Witness for C5: a 70-hour-week employee (daily standard 10h) with an
11-hour schedule span, working 8:00–12:00 and 13:00–17:00 (480 raw
minutes), gets exactly 60 lunch minutes added. -/
theorem C5_unlogged_lunch_heuristic_witness :
    (Clock.handleBatchAddCompute (some 480) (some 720) (some 780) (some 1020)
        (some ⟨3000, 70, "Hourly", "", some "8:00 AM - 7:00 PM"⟩)).totalMinutes
      = (Clock.handleBatchAddCompute (some 480) (some 720) (some 780) (some 1020)
          (some ⟨3000, 70, "Hourly", "", some "8:00 AM - 7:00 PM"⟩)).rawMinutes + 60 := by
  have hspan : Clock.getScheduleSpanHours
      (Clock.coreOf (some ⟨3000, 70, "Hourly", "", some "8:00 AM - 7:00 PM"⟩))
        = some 11 := by
    simp only [Clock.coreOf, Clock.getScheduleSpanHours,
      show Clock.spanMinutes (some "8:00 AM - 7:00 PM") = some 660 from by decide,
      Option.map_some']
    norm_num
  have hraw : (Clock.handleBatchAddCompute (some 480) (some 720) (some 780) (some 1020)
      (some ⟨3000, 70, "Hourly", "", some "8:00 AM - 7:00 PM"⟩)).rawMinutes = 480 := by
    decide
  refine (C5_unlogged_lunch_heuristic (some 480) (some 720) (some 780) (some 1020)
      (some ⟨3000, 70, "Hourly", "", some "8:00 AM - 7:00 PM"⟩)
      (by norm_num [Clock.stdOr40])).1
    ⟨rfl, rfl, rfl, rfl, ⟨11, hspan, by norm_num [Clock.stdOr40]⟩, ?_⟩
  rw [hraw]
  norm_num [Clock.stdOr40]

/-- **C2, counterexample**: for the clock-in API (TimeBased employee,
`baseSalary = 3000`, `standardWorkweekHours = 40`, `totalHours = 8`),
the stored `OverTimePay` (50) differs from
`OvertimeHours × hourlyRate × 1.25` (2.29 × 17.5 × 1.25 = 50.09375):
`calculateOvertimeFields` rounds both fields to two decimals, so the
claimed exact identity fails. -/
theorem C2_counterexample_rounding :
    (Clock.calculateOvertimeFields 8 (some ⟨3000, 40, "Hourly", "", none⟩)).OverTimePay
      ≠ (Clock.calculateOvertimeFields 8 (some ⟨3000, 40, "Hourly", "", none⟩)).OvertimeHours
        * ((3000 / 30 : ℚ) / (40 / 7)) * 1.25 := by
  have hfx : Clock.isFixedEmp (some ⟨3000, 40, "Hourly", "", none⟩) = false := by decide
  have hmax : max (0 : ℚ) (8 - 40 / 7) = 16 / 7 := by
    rw [max_eq_right] <;> norm_num
  have hhr : Clock.calculateHourlyRateNum (some ⟨3000, 40, "Hourly", "", none⟩)
      = 35 / 2 := by
    norm_num [Clock.calculateHourlyRateNum, Clock.baseOr0, Clock.stdOr40]
  have hot : (Clock.calculateOvertimeFields 8
      (some ⟨3000, 40, "Hourly", "", none⟩)).OvertimeHours = 229 / 100 := by
    simp only [Clock.calculateOvertimeFields, hfx, Bool.false_eq_true, if_false, hmax]
    norm_num [Clock.round2]
  have hpay : (Clock.calculateOvertimeFields 8
      (some ⟨3000, 40, "Hourly", "", none⟩)).OverTimePay = 50 := by
    simp only [Clock.calculateOvertimeFields, hfx, Bool.false_eq_true, if_false, hmax, hhr]
    norm_num [Clock.round2]
  rw [hot, hpay]
  norm_num

/-- **C2, amended**: for TimeBased (non-Fixed) employees with positive
`baseSalary` and nonzero `standardWorkweekHours`, the attendance-form
paths satisfy the claim exactly — `overtimePay = overtimeHours ×
hourlyRate × 1.25` with `hourlyRate = (baseSalary/30) /
(standardWorkweekHours/7)` and `overtimeHours = max(0, totalHoursWorked
− dailyStandardHours)` for the path's daily standard — while the
clock-in API stores both fields rounded to two decimals:
`OvertimeHours = round2(max(0, total − std/7))` and `OverTimePay =
round2(max(0, total − std/7) × hourlyRate × 1.25)`. -/
theorem C2_timebased_overtime_pay (e : Clock.Emp)
    (hfix : Clock.isFixedEmp (some e) = false)
    (hb : 0 < e.baseSalary) (hs : e.standardWorkweekHours ≠ 0) :
    (∀ inAM outAM inPM outPM : Option Nat,
      (Clock.handleBatchAddCompute inAM outAM inPM outPM (some e)).overTimePay
        = (Clock.handleBatchAddCompute inAM outAM inPM outPM (some e)).overtimeHours
          * ((e.baseSalary / 30) / (e.standardWorkweekHours / 7)) * 1.25 ∧
      (Clock.handleBatchAddCompute inAM outAM inPM outPM (some e)).overtimeHours
        = max 0 ((Clock.handleBatchAddCompute inAM outAM inPM outPM (some e)).totalHoursWorked
            - e.standardWorkweekHours / 7)) ∧
    (∀ inAM outAM inPM outPM : Option Nat,
      (Clock.handleAddAttendanceCompute inAM outAM inPM outPM (some e)).overTimePay
        = (Clock.handleAddAttendanceCompute inAM outAM inPM outPM (some e)).overtimeHours
          * ((e.baseSalary / 30) / (e.standardWorkweekHours / 7)) * 1.25 ∧
      (Clock.handleAddAttendanceCompute inAM outAM inPM outPM (some e)).overtimeHours
        = max 0 ((Clock.handleAddAttendanceCompute inAM outAM inPM outPM (some e)).totalHoursWorked
            - Clock.adjustedDailyStd (some e))) ∧
    (∀ totalHours : ℚ,
      (Clock.calculateOvertimeFields totalHours (some e)).OvertimeHours
        = Clock.round2 (max 0 (totalHours - e.standardWorkweekHours / 7)) ∧
      (Clock.calculateOvertimeFields totalHours (some e)).OverTimePay
        = Clock.round2 (max 0 (totalHours - e.standardWorkweekHours / 7)
            * ((e.baseSalary / 30) / (e.standardWorkweekHours / 7)) * 1.25)) := by
  have hstd : Clock.stdOr40 (some e) = e.standardWorkweekHours := by
    simp [Clock.stdOr40, hs]
  have hhr : Clock.calculateHourlyRateNum (some e)
      = (e.baseSalary / 30) / (e.standardWorkweekHours / 7) := by
    simp [Clock.calculateHourlyRateNum, Clock.baseOr0, Clock.stdOr40, hb.ne', hs]
  have hpay : ∀ ot : ℚ, 0 ≤ ot →
      (if 0 < ot then ot * ((e.baseSalary / 30) / (e.standardWorkweekHours / 7)) * 1.25
       else 0)
        = ot * ((e.baseSalary / 30) / (e.standardWorkweekHours / 7)) * 1.25 := by
    intro ot hot
    rcases hot.lt_or_eq with h | h
    · rw [if_pos h]
    · rw [if_neg (by rw [← h]; exact lt_irrefl 0), ← h]
      ring
  refine ⟨fun a b c d => ?_, fun a b c d => ?_, fun totalHours => ?_⟩
  · simp only [Clock.handleBatchAddCompute, hfix, hstd, Bool.false_eq_true, if_false,
      not_false_eq_true, true_and, hhr]
    exact ⟨hpay _ (le_max_left 0 _), trivial⟩
  · simp only [Clock.handleAddAttendanceCompute, hfix, Bool.false_eq_true, if_false,
      not_false_eq_true, true_and, hhr]
    exact ⟨hpay _ (le_max_left 0 _), trivial⟩
  · simp only [Clock.calculateOvertimeFields, hfix, Bool.false_eq_true, if_false, hhr]
    refine ⟨trivial, ?_⟩
    by_cases hot : 0 < max 0 (totalHours - e.standardWorkweekHours / 7)
    · rw [if_pos ⟨hb, hot⟩]
    · have h0 : max 0 (totalHours - e.standardWorkweekHours / 7) = 0 :=
        le_antisymm (not_lt.mp hot) (le_max_left 0 _)
      rw [if_neg (fun hc => hot hc.2), h0]
      norm_num [Clock.round2]

/-- Witness for C2 at a concrete TimeBased employee and the overtime
scenario of the spec (40-hour week, 8 worked hours). -/
theorem C2_timebased_overtime_pay_witness :
    (Clock.handleBatchAddCompute (some 480) (some 720) (some 780) (some 1020)
        (some ⟨3000, 40, "Hourly", "", none⟩)).overTimePay
      = (Clock.handleBatchAddCompute (some 480) (some 720) (some 780) (some 1020)
          (some ⟨3000, 40, "Hourly", "", none⟩)).overtimeHours
        * ((3000 / 30 : ℚ) / (40 / 7)) * 1.25 :=
  ((C2_timebased_overtime_pay ⟨3000, 40, "Hourly", "", none⟩ (by decide) (by norm_num)
      (by norm_num)).1 (some 480) (some 720) (some 780) (some 1020)).1

/-- Helper: for a 1st cutoff with at least one expected working day
(true of days 1–15 of every real month), the source's sibling-cutoff
check coincides with the claim's zero-Absent/zero-Invalid/coverage
condition (the source's extra non-empty-fetch requirement is implied by
coverage). -/
theorem firstCutPerfect_iff (firstCutStatuses : List String) (n : Nat) (hn : 0 < n) :
    Clock.firstCutPerfect firstCutStatuses n = true ↔
      (Clock.firstCutAbsents firstCutStatuses = 0 ∧
       Clock.firstCutInvalids firstCutStatuses = 0 ∧
       firstCutStatuses.length ≥ n) := by
  cases firstCutStatuses with
  | nil =>
    simp only [Clock.firstCutPerfect, Clock.firstCutAbsents, Clock.firstCutInvalids,
      List.filter_nil, List.length_nil, Bool.false_eq_true, false_iff]
    rintro ⟨-, -, h⟩
    omega
  | cons a t =>
    simp [Clock.firstCutPerfect, Clock.firstCutAbsents, Clock.firstCutInvalids]

/-- **C3, counterexample**: a 2nd-cutoff period consisting of a single
Sunday (day 22; `expectedWorkingDays = 0`) with one fully-worked record
and a flawless 1st cutoff meets every condition of the claim, so the
claim demands the bonus `dailyRate = 100`; the source pays 0 because of
its additional `expectedWorkingDays > 0` requirement. -/
theorem C3_counterexample_zero_expected_days :
    Clock.perfectAttendanceBonus (some ⟨3000, 40, "Hourly", "", none⟩)
        [⟨some "08:00", some "12:00", some "13:00", some "17:40", 6⟩]
        [0] 22 (List.replicate 13 "Present") (List.replicate 13 1) = 0 ∧
    Clock.claimPerfectCond (some ⟨3000, 40, "Hourly", "", none⟩)
        [⟨some "08:00", some "12:00", some "13:00", some "17:40", 6⟩]
        [0] 22 (List.replicate 13 "Present") (List.replicate 13 1) ∧
    Clock.baseOr0 (some ⟨3000, 40, "Hourly", "", none⟩) / 30 = 100 := by
  have hstd : Clock.adjustedDailyStd (some ⟨3000, 40, "Hourly", "", none⟩) = 40 / 7 := by
    norm_num [Clock.adjustedDailyStd, Clock.stdOr40, Clock.coreOf,
      Clock.getScheduleSpanHours, Clock.spanMinutes]
  have hbs : Clock.brecStatus ⟨some "08:00", some "12:00", some "13:00", some "17:40", 6⟩
      ((40 : ℚ) / 7) = Clock.Status.overtime := by
    norm_num [Clock.brecStatus, Clock.breakdownStatus, Clock.truthyS]
    decide
  have hTd : Clock.countTotalDays
      [⟨some "08:00", some "12:00", some "13:00", some "17:40", 6⟩] ((40 : ℚ) / 7) = 1 := by
    simp [Clock.countTotalDays, hbs]
  have hA : Clock.countAbsent
      [⟨some "08:00", some "12:00", some "13:00", some "17:40", 6⟩] ((40 : ℚ) / 7) = 0 := by
    simp [Clock.countAbsent, hbs]
  have hI : Clock.countInvalid
      [⟨some "08:00", some "12:00", some "13:00", some "17:40", 6⟩] ((40 : ℚ) / 7) = 0 := by
    simp [Clock.countInvalid, hbs]
  refine ⟨?_, ?_, by norm_num [Clock.baseOr0]⟩
  · simp only [Clock.perfectAttendanceBonus, hstd]
    rw [if_neg]
    rintro ⟨-, ⟨-, -, -, h⟩, -⟩
    rw [show Clock.expectedWorkingDays [0] = 0 from by decide] at h
    exact absurd h (by norm_num)
  · refine ⟨by norm_num, ?_, ?_, ?_, by decide, by decide, by decide⟩
    · rw [hstd]; exact hA
    · rw [hstd]; exact hI
    · rw [hstd, hTd]
      decide

/-- **C3, amended**: provided the period range contains at least one
Monday–Saturday day (`expectedWorkingDays > 0` — the source's extra
requirement beyond the claim), the Perfect Attendance Bonus equals
`dailyRate` exactly when the claim's conditions hold and 0 otherwise;
in particular it is 0 whenever either cutoff contains at least one
Absent or Invalid record.  (The hypothesis `0 <
expectedWorkingDays firstCutDows` holds for the 1st cutoff of every real
month.) -/
theorem C3_perfect_attendance_bonus (employee : Option Clock.Emp)
    (records : List Clock.BRec) (periodDows : List Nat) (endDay : Nat)
    (firstCutStatuses : List String) (firstCutDows : List Nat)
    (hfc : 0 < Clock.expectedWorkingDays firstCutDows) :
    (Clock.perfectAttendanceBonus employee records periodDows endDay firstCutStatuses
        firstCutDows
      = if Clock.claimPerfectCond employee records periodDows endDay firstCutStatuses
             firstCutDows
           ∧ 0 < Clock.expectedWorkingDays periodDows
        then Clock.baseOr0 employee / 30 else 0) ∧
    ((0 < Clock.countAbsent records (Clock.adjustedDailyStd employee) ∨
      0 < Clock.countInvalid records (Clock.adjustedDailyStd employee) ∨
      0 < Clock.firstCutAbsents firstCutStatuses ∨
      0 < Clock.firstCutInvalids firstCutStatuses) →
      Clock.perfectAttendanceBonus employee records periodDows endDay firstCutStatuses
        firstCutDows = 0) := by
  have hfcp := firstCutPerfect_iff firstCutStatuses
    (Clock.expectedWorkingDays firstCutDows) hfc
  constructor
  · by_cases hc : Clock.claimPerfectCond employee records periodDows endDay
        firstCutStatuses firstCutDows ∧ 0 < Clock.expectedWorkingDays periodDows
    · rw [if_pos hc]
      obtain ⟨⟨h16, hA, hI, hTd, hfA, hfI, hlen⟩, hexp⟩ := hc
      simp only [Clock.perfectAttendanceBonus]
      rw [if_pos]
      refine ⟨h16, ⟨hA, hI, hTd, hexp⟩, ?_⟩
      rw [if_pos h16]
      exact hfcp.2 ⟨hfA, hfI, hlen⟩
    · rw [if_neg hc]
      simp only [Clock.perfectAttendanceBonus]
      rw [if_neg]
      rintro ⟨h16, ⟨hA, hI, hTd, hexp⟩, hfirst⟩
      rw [if_pos h16] at hfirst
      obtain ⟨hfA, hfI, hlen⟩ := hfcp.1 hfirst
      exact hc ⟨⟨h16, hA, hI, hTd, hfA, hfI, hlen⟩, hexp⟩
  · intro hbad
    simp only [Clock.perfectAttendanceBonus]
    rw [if_neg]
    rintro ⟨h16, ⟨hA, hI, -, -⟩, hfirst⟩
    rw [if_pos h16] at hfirst
    obtain ⟨hfA, hfI, -⟩ := hfcp.1 hfirst
    rcases hbad with h | h | h | h <;> omega

/-- Witness for C3: a flawless full month (2nd cutoff days 16–30 with 13
working days, all Present; flawless 13-working-day 1st cutoff) earns the
bonus `dailyRate`, because both sides of the proved equality evaluate to
the same figure on this input. -/
theorem C3_perfect_attendance_bonus_witness :
    Clock.perfectAttendanceBonus (some ⟨3000, 40, "Hourly", "", none⟩) []
        (List.replicate 13 1) 30 (List.replicate 13 "Present") (List.replicate 13 1)
      = if Clock.claimPerfectCond (some ⟨3000, 40, "Hourly", "", none⟩) []
            (List.replicate 13 1) 30 (List.replicate 13 "Present") (List.replicate 13 1)
           ∧ 0 < Clock.expectedWorkingDays (List.replicate 13 1)
        then Clock.baseOr0 (some ⟨3000, 40, "Hourly", "", none⟩) / 30 else 0 :=
  (C3_perfect_attendance_bonus (some ⟨3000, 40, "Hourly", "", none⟩) []
    (List.replicate 13 1) 30 (List.replicate 13 "Present") (List.replicate 13 1)
    (by decide)).1

/-- **C7, counterexample**: the payroll-breakdown classifier copy does
not use `dailyStandardHours = standardWorkweekHours / 7`: for a 70-hour
week (daily standard 10h) with a schedule span of exactly 10h (> 8), it
lowers the standard to 9h, so a 3.5-hour single-session record is
classified `Half Day` while the claim's thresholds
(`3.5 < 10/2 × 0.75 = 3.75`) demand `ShortHours`. -/
theorem C7_counterexample_breakdown_lowered_std :
    Clock.brecStatus ⟨some "08:00", some "11:30", none, none, 3.5⟩
        (Clock.adjustedDailyStd (some ⟨3000, 70, "Time-based", "", some "8:00 AM - 6:00 PM"⟩))
      = Clock.Status.halfDay ∧
    Clock.claimHalfDayStatus 3.5 ((70 : ℚ) / 7) = Clock.Status.shortHours := by
  have hspan : Clock.getScheduleSpanHours
      (Clock.coreOf (some ⟨3000, 70, "Time-based", "", some "8:00 AM - 6:00 PM"⟩))
        = some 10 := by
    simp only [Clock.coreOf, Clock.getScheduleSpanHours,
      show Clock.spanMinutes (some "8:00 AM - 6:00 PM") = some 600 from by decide,
      Option.map_some']
    norm_num
  have hstd : Clock.adjustedDailyStd
      (some ⟨3000, 70, "Time-based", "", some "8:00 AM - 6:00 PM"⟩) = 9 := by
    rw [Clock.adjustedDailyStd, hspan]
    norm_num [Clock.stdOr40]
  constructor
  · rw [hstd]
    norm_num [Clock.brecStatus, Clock.breakdownStatus, Clock.truthyS]
    decide
  · norm_num [Clock.claimHalfDayStatus]

/-- **C7, amended**: for a record that is not today's, with no leave and
exactly one complete session, the three classifier copies apply the
claim's three-way rule (`< 0.5` → Invalid, `< dailyStd/2 × 0.75` →
ShortHours, else HalfDay) in that order — the dashboard badge and the
monthly summary with `dailyStandardHours = standardWorkweekHours / 7` as
claimed, the payroll-breakdown copy with its (possibly lunch-lowered)
`adjustedDailyStd` instead. -/
theorem C7_single_session_thresholds (inAM outAM inPM outPM : Option String)
    (leaveType : String) (total : ℚ) (employee : Option Clock.Emp)
    (hleave : leaveType = "" ∨ leaveType = "None")
    (hsession :
      ((Clock.truthyS inAM && Clock.truthyS outAM) = true ∧
        (Clock.truthyS inPM && Clock.truthyS outPM) = false) ∨
      ((Clock.truthyS inAM && Clock.truthyS outAM) = false ∧
        (Clock.truthyS inPM && Clock.truthyS outPM) = true)) :
    Clock.getAttendanceStatusBadge inAM outAM inPM outPM false leaveType total employee
      = Clock.claimHalfDayStatus total (Clock.stdOr40 employee / 7) ∧
    Clock.summaryStatus (Clock.truthyS inAM && Clock.truthyS outAM)
        (Clock.truthyS inPM && Clock.truthyS outPM) total (Clock.stdOr40 employee / 7)
      = Clock.claimHalfDayStatus total (Clock.stdOr40 employee / 7) ∧
    Clock.breakdownStatus (Clock.truthyS inAM && Clock.truthyS outAM)
        (Clock.truthyS inPM && Clock.truthyS outPM) total (Clock.adjustedDailyStd employee)
      = Clock.claimHalfDayStatus total (Clock.adjustedDailyStd employee) := by
  have hl : ¬(leaveType ≠ "" ∧ leaveType ≠ "None") := by
    rcases hleave with h | h <;> simp [h]
  rcases hsession with ⟨hA, hP⟩ | ⟨hA, hP⟩ <;>
    refine ⟨?_, ?_, ?_⟩ <;>
      simp [Clock.getAttendanceStatusBadge, Clock.summaryStatus, Clock.breakdownStatus,
        Clock.claimHalfDayStatus, hA, hP, hl]

/-- Witness for C7: a 3.5-hour AM-only record for a default (40-hour)
employee classifies as the claim's three-way rule dictates. -/
theorem C7_single_session_thresholds_witness :
    Clock.getAttendanceStatusBadge (some "08:00") (some "11:30") none none false "" 3.5 none
      = Clock.claimHalfDayStatus 3.5 (Clock.stdOr40 none / 7) :=
  (C7_single_session_thresholds (some "08:00") (some "11:30") none none "" 3.5 none
    (Or.inl rfl) (Or.inl ⟨by decide, by decide⟩)).1

/-- Witness for C8: a parsable descriptor resolves to its span, an
unparsable one to `null`. -/
theorem C8_schedule_span_resolver_witness :
    Clock.getScheduleSpanHours (some "8:00 AM - 6:00 PM")
      = some (((1080 : ℚ) - 480) / 60) ∧
    Clock.getScheduleSpanHours (some "whole day") = none :=
  ⟨(C8_schedule_span_resolver (some "8:00 AM - 6:00 PM")).2.2.2.2.2
      "8:00 AM - 6:00 PM" "8:00 AM".toList "6:00 PM".toList 480 1080 rfl
      (by decide) (by decide) (by decide) (by decide) (by decide),
   (by
     have hlen : ((Clock.splitDash "whole day".toList).map Clock.trimL).length = 1 := by
       decide
     exact (C8_schedule_span_resolver (some "whole day")).2.2.2.1 "whole day" rfl
       (by decide) (by decide)
       (fun a b h => by rw [h] at hlen; simp at hlen))⟩

